import Mathlib

/-!
Shallow embedding of the GHW (G-format) waveform decoder from `src/src/ghw.rs`.

Conventions of the embedding:
* Bytes are `Nat`; byte streams are `List Nat`, consumed left to right.
* `Rust` fallible functions return `PResult`: `ok` for `Ok`, `err` for a
  structured `GhwParseError`, and `panicked` for a Rust panic
  (`unwrap` on `None`/zero, `todo`, `unreachable`, slice index out of bounds).
* Rust `String` values are byte lists; UTF-8 lossy decoding, which is the
  identity on the byte level for the properties studied here, is not modelled.
* `debug_assert` statements are no-ops in release builds and are omitted.
* Loops that are not bounded by an explicit count in the source recurse on a
  fuel argument; the wrappers pass fuel larger than the number of iterations
  the source can perform (each iteration consumes at least one input byte),
  so the `panicked "out of fuel"` branch is unreachable on the source's runs.
* Components of the crate that are not part of `src/` (`wavemem`,
  `hierarchy`, `SignalRef`) are modelled from the specification document and
  carry a doc comment saying so.
-/

namespace Ghw

/-- Header fields decoded by `read_ghw_header` (struct `HeaderData`). -/
structure HeaderData where
  version : Nat
  big_endian : Bool
  word_len : Nat
  word_offset : Nat
deriving DecidableEq, Repr

/-- The GHDL RTIK type kind byte (enum `GhwRtik`). -/
inductive GhwRtik where
  | Error
  | EndOfScope
  | Signal
  | PortIn
  | PortOut
  | PortInOut
  | PortBuffer
  | PortLinkage
  | TypeB2
  | TypeE8
  | TypeI32
  | TypeI64
  | TypeF64
  | TypeP32
  | TypeP64
  | TypeArray
  | TypeRecord
  | SubtypeScalar
  | SubtypeArray
  | SubtypeUnboundedArray
  | SubtypeRecord
  | SubtypeUnboundedRecord
deriving DecidableEq, Repr

/-- `GhwRtik::try_from_primitive`: decode the RTIK byte. -/
def GhwRtik.ofByte (b : Nat) : Option GhwRtik :=
  if b = 0 then some .Error
  else if b = 15 then some .EndOfScope
  else if b = 16 then some .Signal
  else if b = 17 then some .PortIn
  else if b = 18 then some .PortOut
  else if b = 19 then some .PortInOut
  else if b = 20 then some .PortBuffer
  else if b = 21 then some .PortLinkage
  else if b = 22 then some .TypeB2
  else if b = 23 then some .TypeE8
  else if b = 25 then some .TypeI32
  else if b = 26 then some .TypeI64
  else if b = 27 then some .TypeF64
  else if b = 28 then some .TypeP32
  else if b = 29 then some .TypeP64
  else if b = 31 then some .TypeArray
  else if b = 32 then some .TypeRecord
  else if b = 34 then some .SubtypeScalar
  else if b = 35 then some .SubtypeArray
  else if b = 37 then some .SubtypeUnboundedArray
  else if b = 38 then some .SubtypeRecord
  else if b = 39 then some .SubtypeUnboundedRecord
  else none

/-- The record kinds of the hierarchy section (enum `GhwHierarchyKind`). -/
inductive GhwHierarchyKind where
  | End
  | Design
  | Block
  | GenerateIf
  | GenerateFor
  | Instance
  | Package
  | Process
  | Generic
  | EndOfScope
  | Signal
  | PortIn
  | PortOut
  | PortInOut
  | Buffer
  | Linkage
deriving DecidableEq, Repr

/-- `GhwHierarchyKind::try_from_primitive`: decode the hierarchy kind byte. -/
def GhwHierarchyKind.ofByte (b : Nat) : Option GhwHierarchyKind :=
  if b = 0 then some .End
  else if b = 1 then some .Design
  else if b = 3 then some .Block
  else if b = 4 then some .GenerateIf
  else if b = 5 then some .GenerateFor
  else if b = 6 then some .Instance
  else if b = 7 then some .Package
  else if b = 13 then some .Process
  else if b = 14 then some .Generic
  else if b = 15 then some .EndOfScope
  else if b = 16 then some .Signal
  else if b = 17 then some .PortIn
  else if b = 18 then some .PortOut
  else if b = 19 then some .PortInOut
  else if b = 20 then some .Buffer
  else if b = 21 then some .Linkage
  else none

/-- The error kinds of enum `GhwParseError` that the embedded functions can
produce. `UnexpectedHeaderMagicE` and `UnexpectedSectionE` carry the raw
bytes the source would lossy-decode into the message. -/
inductive GhwParseError where
  | UnsupportedCompression (which : String)
  | UnexpectedHeaderMagicE (bytes : List Nat)
  | UnexpectedHeaderE (data : HeaderData)
  | UnexpectedSectionE (bytes : List Nat)
  | UnexpectedTypeE (kind : GhwRtik) (context : String)
  | FailedToParseSection (sect : String) (msg : String)
  | ExpectedPositiveInteger (i : Int)
  | FailedToParseGhdlRtik (b : Nat)
  | FailedToParseHierKind (b : Nat)
  | Leb128Err
  | IoErr
deriving DecidableEq, Repr

/-- Outcome of running a piece of the decoder: `Ok`, `Err`, or a Rust panic. -/
inductive PResult (α : Type) where
  | ok (val : α)
  | err (e : GhwParseError)
  | panicked (msg : String)
deriving DecidableEq, Repr

/-- Monadic bind on `PResult`: errors and panics short-circuit. -/
def PResult.bind {α β : Type} : PResult α → (α → PResult β) → PResult β
  | .ok a, f => f a
  | .err e, _ => .err e
  | .panicked m, _ => .panicked m

instance : Monad PResult where
  pure := PResult.ok
  bind := PResult.bind

/-- Map on `PResult`. -/
def PResult.map {α β : Type} (f : α → β) : PResult α → PResult β
  | .ok a => .ok (f a)
  | .err e => .err e
  | .panicked m => .panicked m

/-- `Result::is_ok`. -/
def PResult.isOk {α : Type} : PResult α → Bool
  | .ok _ => true
  | _ => false

/-- `read_exact` into a buffer of `n` bytes; an I/O error if the stream is
shorter. -/
def read_exact_p (n : Nat) (input : List Nat) : PResult (List Nat × List Nat) :=
  if n ≤ input.length then .ok (input.take n, input.drop n) else .err .IoErr

/-- `read_u8`: one byte from the stream. -/
def read_u8_p (input : List Nat) : PResult (Nat × List Nat) :=
  match input with
  | [] => .err .IoErr
  | b :: rest => .ok (b, rest)

/-- `leb128::read::unsigned`: unsigned LEB128 (7 payload bits per byte,
bit 7 is the continuation flag). -/
def leb128_u : List Nat → Option (Nat × List Nat)
  | [] => none
  | b :: rest =>
    if b < 128 then some (b, rest)
    else match leb128_u rest with
      | some (v, r) => some ((b &&& 127) + 128 * v, r)
      | none => none

/-- `leb128::read::signed`: signed LEB128 (two's complement, sign from bit 6
of the final byte). -/
def leb128_s : List Nat → Option (Int × List Nat)
  | [] => none
  | b :: rest =>
    if b < 128 then
      if b < 64 then some ((b : Int), rest) else some ((b : Int) - 128, rest)
    else match leb128_s rest with
      | some (v, r) => some (((b &&& 127 : Nat) : Int) + 128 * v, r)
      | none => none

/-- Little-endian byte-list to natural number. -/
def leNat : List Nat → Nat
  | [] => 0
  | b :: rest => b + 256 * leNat rest

/-- `HeaderData::read_i32`: endianness-aware 4-byte signed read (here from an
already-extracted 4-byte slice). -/
def i32_of_bytes (hd : HeaderData) (b : List Nat) : Int :=
  let n := if hd.big_endian then leNat b.reverse else leNat b
  if n < 2 ^ 31 then (n : Int) else (n : Int) - 2 ^ 32

/-- `HeaderData::read_u32`: fails with `ExpectedPositiveInteger` when the
signed interpretation is negative. -/
def u32_of_bytes (hd : HeaderData) (b : List Nat) : PResult Nat :=
  let i := i32_of_bytes hd b
  if 0 ≤ i then .ok i.toNat else .err (.ExpectedPositiveInteger i)

/-- `HeaderData::read_i64`: endianness-aware 8-byte signed read. -/
def i64_of_bytes (hd : HeaderData) (b : List Nat) : Int :=
  let n := if hd.big_endian then leNat b.reverse else leNat b
  if n < 2 ^ 63 then (n : Int) else (n : Int) - 2 ^ 64

/-- The 9-byte magic `GHDLwave\n` (`GHW_HEADER_START`). -/
def GHW_HEADER_START : List Nat := [71, 72, 68, 76, 119, 97, 118, 101, 10]

/-- `read_ghw_header`: validate the file magic and the 7 remaining header
bytes, producing the decoded `HeaderData` and the rest of the stream. -/
def read_ghw_header (input : List Nat) : PResult (HeaderData × List Nat) := do
  let (comp, r1) ← read_exact_p 2 input
  if comp = [71, 72] then
    let (magicRest, r2) ← read_exact_p 7 r1
    if magicRest ≠ GHW_HEADER_START.drop 2 then
      .err (.UnexpectedHeaderMagicE (comp ++ magicRest))
    else
      let (h, r3) ← read_exact_p 7 r2
      let data : HeaderData :=
        ⟨h.getD 2 0, h.getD 3 0 == 2, h.getD 4 0, h.getD 5 0⟩
      if h.getD 0 0 ≠ 16 ∨ h.getD 1 0 ≠ 0 then .err (.UnexpectedHeaderE data)
      else if data.version > 1 then .err (.UnexpectedHeaderE data)
      else if h.getD 3 0 ≠ 1 ∧ h.getD 3 0 ≠ 2 then .err (.UnexpectedHeaderE data)
      else if h.getD 6 0 ≠ 0 then .err (.UnexpectedHeaderE data)
      else .ok (data, r3)
  else if comp = [31, 139] then .err (.UnsupportedCompression "gzip")
  else if comp = [66, 90] then .err (.UnsupportedCompression "bzip2")
  else .err (.UnexpectedHeaderMagicE comp)

/-- A seekable input: the underlying bytes plus the read-cursor position. -/
structure ByteStream where
  data : List Nat
  pos : Nat
deriving DecidableEq, Repr

/-- `is_ghw`: probe the header from the current cursor, then seek back to the
start of the stream regardless of the outcome. -/
def is_ghw (input : ByteStream) : Bool × ByteStream :=
  let r := read_ghw_header (input.data.drop input.pos)
  (r.isOk, { input with pos := 0 })

/-- `check_header_zeros`: the first four bytes of a section header must be
zero. -/
def check_header_zeros (sect : String) (h : List Nat) : PResult Unit :=
  if h.length < 4 then
    .err (.FailedToParseSection sect "first four bytes should be zero")
  else if h.take 4 = [0, 0, 0, 0] then .ok ()
  else .err (.FailedToParseSection sect "first four bytes should be zero and not")

/-- `check_magic_end`: a section must close with its expected 4-byte end tag. -/
def check_magic_end (input : List Nat) (_sect : String) (expected : List Nat) :
    PResult (Unit × List Nat) := do
  let (endMagic, r) ← read_exact_p 4 input
  if endMagic = expected then .ok ((), r)
  else .err (.UnexpectedSectionE endMagic)

/-- `read_string_id`: an unsigned varint, usable as-is (0 is the sentinel). -/
def read_string_id (input : List Nat) : PResult (Nat × List Nat) :=
  match leb128_u input with
  | none => .err .Leb128Err
  | some (v, r) => .ok (v, r)

/-- `read_type_id`: an unsigned varint wrapped in `NonZeroU32::new(..).unwrap()`;
a zero value panics instead of producing an error. -/
def read_type_id (input : List Nat) : PResult (Nat × List Nat) :=
  match leb128_u input with
  | none => .err .Leb128Err
  | some (v, r) => if v = 0 then .panicked "NonZeroU32 unwrap on zero" else .ok (v, r)

/-- Range direction (enum `RangeDir`). -/
inductive RangeDir where
  | To
  | Downto
deriving DecidableEq, Repr

/-- An integer range with a direction (struct `IntRange`). -/
structure IntRange where
  dir : RangeDir
  left : Int
  right : Int
deriving DecidableEq, Repr

/-- `IntRange::range`: the half-open ascending projection `start..end`. -/
def IntRange.rangePair (r : IntRange) : Int × Int :=
  match r.dir with
  | .To => (r.left, r.right + 1)
  | .Downto => (r.right, r.left + 1)

/-- `IntRange::len`. -/
def IntRange.len (r : IntRange) : Int :=
  match r.dir with
  | .To => r.right - r.left + 1
  | .Downto => r.left - r.right + 1

/-- `IntRange::as_var_index`: the `(msb, lsb)` pair. -/
def IntRange.as_var_index (r : IntRange) : Int × Int := (r.left, r.right)

/-- `IntRange::is_subset_of`: inclusive on both ends of the ascending
projection. -/
def IntRange.is_subset_of (r o : IntRange) : Bool :=
  let a := r.rangePair
  let b := o.rangePair
  decide (b.1 ≤ a.1) && decide (a.2 ≤ b.2)

/-- A range payload (enum `Range`); the float variant is never constructed
because `read_range` hits `todo` for `F64`, and its `f64` payload is not
modelled. -/
inductive Range where
  | IntR (r : IntRange)
  | FloatR
deriving DecidableEq, Repr

/-- `read_range`: a kind byte (bit 7 = `Downto`), then two raw bytes for
`B2`/`E8` or two signed varints for the integer kinds. -/
def read_range (input : List Nat) : PResult (Range × List Nat) := do
  let (t, r) ← read_u8_p input
  match GhwRtik.ofByte (t &&& 127) with
  | none => .err (.FailedToParseGhdlRtik (t &&& 127))
  | some kind =>
    let dir := if t &&& 128 ≠ 0 then RangeDir.Downto else RangeDir.To
    match kind with
    | .TypeE8 | .TypeB2 => do
      let (b, r2) ← read_exact_p 2 r
      .ok (.IntR ⟨dir, (b.getD 0 0 : Int), (b.getD 1 0 : Int)⟩, r2)
    | .TypeI32 | .TypeP32 | .TypeI64 | .TypeP64 =>
      match leb128_s r with
      | none => .err .Leb128Err
      | some (left, r2) =>
        match leb128_s r2 with
        | none => .err .Leb128Err
        | some (right, r3) => .ok (.IntR ⟨dir, left, right⟩, r3)
    | .TypeF64 => .panicked "todo: float range"
    | other => .err (.UnexpectedTypeE other "for range")

/-- The decoded VHDL type representation (enum `VhdlType`). String payloads
are byte lists; names and literals are string-table ids; type references are
1-based type ids. The `f64` range payload of `F64` is always `None` in the
source and is not modelled. -/
inductive VhdlType where
  | NineValueBit (name : Nat) (lut : List Nat)
  | NineValueVec (name : Nat) (lut : List Nat) (range : IntRange)
  | TypeAlias (name : Nat) (base : Nat)
  | I32 (name : Nat) (range : Option IntRange)
  | I64 (name : Nat) (range : Option IntRange)
  | F64 (name : Nat)
  | Record (name : Nat) (fields : List (Nat × Nat))
  | Enum (name : Nat) (literals : List Nat)
  | Array (name : Nat) (elem : Nat) (range : Option IntRange)
deriving DecidableEq, Repr

/-- `VhdlType::name`. -/
def VhdlType.name : VhdlType → Nat
  | .NineValueBit n _ => n
  | .NineValueVec n _ _ => n
  | .TypeAlias n _ => n
  | .I32 n _ => n
  | .I64 n _ => n
  | .F64 n => n
  | .Record n _ => n
  | .Enum n _ => n
  | .Array n _ _ => n

/-- `VhdlType::int_range`. -/
def VhdlType.intRange : VhdlType → Option IntRange
  | .NineValueBit _ _ => some ⟨.To, 0, 8⟩
  | .I32 _ r => r
  | .I64 _ r => r
  | .Enum _ lits => some ⟨.To, 0, (lits.length : Int)⟩
  | _ => none

/-- `VhdlType::is_alias`, as a boolean on the embedded type. -/
def VhdlType.isAlias : VhdlType → Bool
  | .TypeAlias _ _ => true
  | _ => false

/-- `lookup_concrete_type`: resolve one layer of type aliases; an
out-of-bounds index panics as the Rust slice index would. -/
def lookup_concrete_type (types : List VhdlType) (type_id : Nat) : PResult VhdlType :=
  match types.get? (type_id - 1) with
  | none => .panicked "type index out of bounds"
  | some (.TypeAlias _ base) =>
    match types.get? (base - 1) with
    | none => .panicked "type index out of bounds"
    | some t => .ok t
  | some other => .ok other

/-- `lookup_concrete_type_id`: resolve one layer of type aliases at the id
level. -/
def lookup_concrete_type_id (types : List VhdlType) (type_id : Nat) : PResult Nat :=
  match types.get? (type_id - 1) with
  | none => .panicked "type index out of bounds"
  | some (.TypeAlias _ base) => .ok base
  | some _ => .ok type_id

/-- Modelled from the spec: `crate::wavemem::bit_char_to_num` (the `wavemem`
module is not part of `src/`); the canonical mapping of an ASCII character to
its index in the 9-state alphabet `0 1 x z h u w l -`. -/
def bit_char_to_num (c : Nat) : Option Nat :=
  if c = 48 then some 0
  else if c = 49 then some 1
  else if c = 120 then some 2
  else if c = 122 then some 3
  else if c = 104 then some 4
  else if c = 117 then some 5
  else if c = 119 then some 6
  else if c = 108 then some 7
  else if c = 45 then some 8
  else none

/-- The character a literal contributes in `try_parse_nine_value_bit`: the
whole literal if it has length 1, its middle character if it has length 3
(GHDL writes enum literals with their tick delimiters), otherwise none. -/
def extract_char : List Nat → Option Nat
  | [c] => some c
  | [_, c, _] => some c
  | _ => none

/-- The canonical code of one literal: look the literal string up in the
string table, extract its character, and map it through `bit_char_to_num`. -/
def litCode (strings : List (List Nat)) (litId : Nat) : Option Nat :=
  (extract_char (strings.getD litId [])).bind bit_char_to_num

/-- The literal loop of `try_parse_nine_value_bit`: map each literal, reject
duplicates via the coverage mask, and write the code at the literal's index
into the lookup table. -/
def nvb_go (strings : List (List Nat)) (name : Nat) :
    List Nat → Nat → List Nat → List Bool → Option VhdlType
  | [], _, lut, _ => some (.NineValueBit name lut)
  | litId :: rest, ii, lut, covered =>
    match litCode strings litId with
    | none => none
    | some out =>
      if covered.getD out false then none
      else nvb_go strings name rest (ii + 1) (lut.set ii out) (covered.set out true)

/-- `try_parse_nine_value_bit`: an enum is a nine-value bit type iff it has
exactly 9 literals whose characters map injectively into the 9-state
alphabet. -/
def try_parse_nine_value_bit (strings : List (List Nat)) (name : Nat)
    (literals : List Nat) : Option VhdlType :=
  if literals.length ≠ 9 then none
  else nvb_go strings name literals 0 (List.replicate 9 0) (List.replicate 9 false)

/-- `VhdlType::from_enum`. -/
def VhdlType.from_enum (strings : List (List Nat)) (name : Nat)
    (literals : List Nat) : VhdlType :=
  match try_parse_nine_value_bit strings name literals with
  | some nineValue => nineValue
  | none => .Enum name literals

/-- `VhdlType::from_array`. -/
def VhdlType.from_array (name : Nat) (types : List VhdlType) (element_tpe : Nat)
    (index : Nat) : PResult VhdlType := do
  let element_tpe_id ← lookup_concrete_type_id types element_tpe
  let index_type ← lookup_concrete_type types index
  let index_range := index_type.intRange
  match types.get? (element_tpe_id - 1) with
  | none => .panicked "type index out of bounds"
  | some elemEntry =>
    match elemEntry, index_range with
    | .NineValueBit _ lut, some range => .ok (.NineValueVec name lut range)
    | _, _ => .ok (.Array name element_tpe_id index_range)

/-- `VhdlType::from_record` (the debug assertion on field aliasing is a
release no-op). -/
def VhdlType.from_record (name : Nat) (_types : List VhdlType)
    (fields : List (Nat × Nat)) : VhdlType :=
  .Record name fields

/-- `VhdlType::from_subtype_array`. -/
def VhdlType.from_subtype_array (name : Nat) (types : List VhdlType) (base : Nat)
    (range : Range) : PResult VhdlType := do
  let base_tpe ← lookup_concrete_type types base
  match base_tpe, range with
  | .Array _ _ _, .IntR _ => .panicked "todo: subtype of array"
  | .NineValueVec _ lut _, .IntR int_range => .ok (.NineValueVec name lut int_range)
  | _, _ => .panicked "todo: unsupported combination"

/-- `VhdlType::from_subtype_scalar`. Note that the alias produced in the
`Enum` and `NineValueBit` arms stores `base` itself, not the resolved
concrete id. -/
def VhdlType.from_subtype_scalar (name : Nat) (types : List VhdlType) (base : Nat)
    (range : Range) : PResult VhdlType := do
  let base_tpe ← lookup_concrete_type types base
  match base_tpe, range with
  | .Enum _ lits, .IntR int_range =>
    let r := int_range.rangePair
    if r.1 = 0 ∧ r.2 = (lits.length : Int) then .ok (.TypeAlias name base)
    else .panicked "todo: actual sub enum"
  | .NineValueBit _ _, .IntR int_range =>
    let r := int_range.rangePair
    if r.1 = 0 ∧ r.2 = 9 then .ok (.TypeAlias name base)
    else .panicked "todo: actual sub enum"
  | .I32 _ _, .IntR int_range => .ok (.I32 name (some int_range))
  | _, _ => .panicked "todo: unsupported combination"

/-- The literal-id list of a `B2`/`E8` type entry. -/
def read_string_ids : Nat → List Nat → PResult (List Nat × List Nat)
  | 0, input => .ok ([], input)
  | n + 1, input => do
    let (s, r) ← read_string_id input
    let (ss, r2) ← read_string_ids n r
    .ok (s :: ss, r2)

/-- The dimension-id list of a `TypeArray` entry. -/
def read_type_ids : Nat → List Nat → PResult (List Nat × List Nat)
  | 0, input => .ok ([], input)
  | n + 1, input => do
    let (t, r) ← read_type_id input
    let (ts, r2) ← read_type_ids n r
    .ok (t :: ts, r2)

/-- The field list of a `TypeRecord` entry: each field's type id is resolved
through one layer of alias against the table built so far. -/
def read_record_fields (table : List VhdlType) :
    Nat → List Nat → PResult (List (Nat × Nat) × List Nat)
  | 0, input => .ok ([], input)
  | n + 1, input => do
    let (fieldName, r) ← read_string_id input
    let (rawTpe, r2) ← read_type_id r
    let fieldTpe ← lookup_concrete_type_id table rawTpe
    let (fs, r3) ← read_record_fields table n r2
    .ok ((fieldName, fieldTpe) :: fs, r3)

/-- The entry loop of `read_type_section`: one kind byte, a name, and a
kind-dependent payload per entry; kinds the source does not implement panic
with `todo`. -/
def type_entries (strings : List (List Nat)) :
    Nat → List VhdlType → List Nat → PResult (List VhdlType × List Nat)
  | 0, table, input => .ok (table, input)
  | n + 1, table, input => do
    let (t, r) ← read_u8_p input
    match GhwRtik.ofByte t with
    | none => .err (.FailedToParseGhdlRtik t)
    | some kind => do
      let (name, r2) ← read_string_id r
      let (tpe, r3) ← (do
        match kind with
        | .TypeE8 | .TypeB2 =>
          match leb128_u r2 with
          | none => (.err .Leb128Err : PResult (VhdlType × List Nat))
          | some (numLiterals, ra) => do
            let (literals, rb) ← read_string_ids numLiterals ra
            .ok (VhdlType.from_enum strings name literals, rb)
        | .TypeI32 => .ok (.I32 name none, r2)
        | .TypeI64 => .ok (.I64 name none, r2)
        | .TypeF64 => .ok (.F64 name, r2)
        | .SubtypeScalar => do
          let (base, ra) ← read_type_id r2
          let (range, rb) ← read_range ra
          let tpe ← VhdlType.from_subtype_scalar name table base range
          .ok (tpe, rb)
        | .TypeArray => do
          let (element_tpe, ra) ← read_type_id r2
          match leb128_u ra with
          | none => .err .Leb128Err
          | some (numDims, rb) => do
            let (dims, rc) ← read_type_ids numDims rb
            match dims with
            | [] => .panicked "index out of bounds"
            | [d] => do
              let tpe ← VhdlType.from_array name table element_tpe d
              .ok (tpe, rc)
            | _ => .panicked "todo: multi-dimensional arrays"
        | .SubtypeArray => do
          let (base, ra) ← read_type_id r2
          let (range, rb) ← read_range ra
          let tpe ← VhdlType.from_subtype_array name table base range
          .ok (tpe, rb)
        | .TypeRecord =>
          match leb128_u r2 with
          | none => .err .Leb128Err
          | some (numFields, ra) => do
            let (fields, rb) ← read_record_fields table numFields ra
            .ok (VhdlType.from_record name table fields, rb)
        | _ => .panicked "todo: unsupported type kind")
      type_entries strings n (table ++ [tpe]) r3

/-- `read_type_section`: an 8-byte header (4 zeros and a count), the entry
loop, and a mandatory terminating zero byte. -/
def read_type_section (hd : HeaderData) (strings : List (List Nat))
    (input : List Nat) : PResult (List VhdlType × List Nat) := do
  let (h, r) ← read_exact_p 8 input
  let _ ← check_header_zeros "type" h
  let type_num ← u32_of_bytes hd ((h.drop 4).take 4)
  let (table, r2) ← type_entries strings type_num [] r
  let (z, r3) ← read_u8_p r2
  if z ≠ 0 then .err (.FailedToParseSection "type" "last byte should be 0")
  else .ok (table, r3)

/-- The physical encoding a slot is read with (enum `SignalType`). -/
inductive SignalType where
  | U8
  | I32
  | I64
  | F64
deriving DecidableEq, Repr

/-- A decoded sample value (enum `SignalValue`); the `F64` variant is never
constructed because `read_signal_value` hits `todo` for `F64`, and its `f64`
payload is not modelled. -/
inductive SignalValue where
  | U8 (v : Nat)
  | I32 (v : Int)
  | I64 (v : Int)
deriving DecidableEq, Repr

/-- A signal slot (struct `SignalInfo`): a contiguous run of physical ids and
the encoding to read each with. -/
structure SignalInfo where
  start_id : Nat
  end_id : Nat
  tpe : SignalType
deriving DecidableEq, Repr

/-- `SignalInfo::len`. -/
def SignalInfo.len (s : SignalInfo) : Nat := s.end_id - s.start_id + 1

/-- `read_signal_id`: an unsigned varint index into the slot table. Too-large
indices fail with a structured error; index 0 passes that check and panics in
`NonZeroU32::new(0).unwrap()`; an in-range first observation allocates a
`U8` slot with the index as both start and end id; an existing slot is left
unchanged. -/
def read_signal_id (input : List Nat) (signals : List (Option SignalInfo)) :
    PResult ((Nat × List (Option SignalInfo)) × List Nat) :=
  match leb128_u input with
  | none => .err .Leb128Err
  | some (index, rest) =>
    if signals.length ≤ index then
      .err (.FailedToParseSection "hierarchy"
        ("SignalId too large " ++ toString index ++ " > " ++ toString signals.length))
    else if index = 0 then .panicked "NonZeroU32 unwrap on zero"
    else
      let signals2 :=
        match signals.getD index none with
        | none => signals.set index (some ⟨index, index, .U8⟩)
        | some _ => signals
      .ok ((index, signals2), rest)

/-- Modelled from the spec: the scope kinds of the hierarchy store
(`crate::ScopeType`; the `hierarchy` module is not part of `src/`). -/
inductive ScopeType where
  | VhdlBlock
  | VhdlIfGenerate
  | VhdlForGenerate
  | Interface
  | VhdlPackage
  | GhwGeneric
  | VhdlProcess
  | Module
deriving DecidableEq, Repr

/-- Modelled from the spec: variable kinds (`crate::VarType`). -/
inductive VarType where
  | Wire
  | Port
deriving DecidableEq, Repr

/-- Modelled from the spec: variable directions (`crate::VarDirection`). -/
inductive VarDirection where
  | Implicit
  | Input
  | Output
  | InOut
  | Buffer
  | Linkage
deriving DecidableEq, Repr

/-- Modelled from the spec: one operation recorded against the hierarchy
store builder of the spec's hierarchy-store interface. -/
inductive HEvent where
  | addScope (name : List Nat) (kind : ScopeType)
  | popScope
  | addVar (name : List Nat) (tpe : VarType) (dir : VarDirection) (bits : Nat)
      (index : Option (Int × Int)) (signalRef : Nat) (enumType : Option Nat)
      (typeName : Option (List Nat))
  | addEnumType (name : List Nat) (mapping : List (List Nat × List Nat))
deriving DecidableEq, Repr

/-- Modelled from the spec: the hierarchy store builder
(`crate::hierarchy::HierarchyBuilder`, not part of `src/`), recorded as the
list of operations performed on it plus the enum-type id counter. -/
structure HB where
  events : List HEvent
  nextEnumId : Nat
deriving DecidableEq, Repr

/-- Modelled from the spec: `HierarchyBuilder::pop_scope`. -/
def HB.popScope (h : HB) : HB := { h with events := h.events ++ [.popScope] }

/-- Modelled from the spec: `HierarchyBuilder::add_scope` (component, source
info and the flatten flag are always absent or false in the GHW reader and
are omitted). -/
def HB.addScope (h : HB) (name : List Nat) (kind : ScopeType) : HB :=
  { h with events := h.events ++ [.addScope name kind] }

/-- Modelled from the spec: `HierarchyBuilder::add_var`. -/
def HB.addVar (h : HB) (name : List Nat) (tpe : VarType) (dir : VarDirection)
    (bits : Nat) (index : Option (Int × Int)) (signalRef : Nat)
    (enumType : Option Nat) (typeName : Option (List Nat)) : HB :=
  { h with events := h.events ++ [.addVar name tpe dir bits index signalRef enumType typeName] }

/-- Modelled from the spec: `HierarchyBuilder::add_enum_type`, returning the
fresh enum-type id. -/
def HB.addEnumType (h : HB) (name : List Nat) (mapping : List (List Nat × List Nat)) :
    Nat × HB :=
  (h.nextEnumId,
   { events := h.events ++ [.addEnumType name mapping], nextEnumId := h.nextEnumId + 1 })

/-- Modelled from the spec: `SignalRef::from_index` (not part of `src/`); a
handle is a 1-based positive integer, so index 0 yields `None`. -/
def signalRefFromIndex (index : Nat) : Option Nat :=
  if index = 0 then none else some index

/-- The type and string tables shared by the section readers (struct
`GhwTables`; the `hier_string_ids` cache is only used by code outside the
paths embedded here and is omitted). -/
structure GhwTables where
  types : List VhdlType
  strings : List (List Nat)
deriving DecidableEq, Repr

/-- `GhwTables::get_str` (an out-of-range id, which would panic in Rust, is
not exercised by any theorem below and yields the empty string). -/
def GhwTables.get_str (t : GhwTables) (string_id : Nat) : List Nat :=
  t.strings.getD string_id []

/-- `GhwTables::get_type_and_name`. -/
def GhwTables.get_type_and_name (t : GhwTables) (type_id : Nat) :
    PResult (VhdlType × List Nat) :=
  match t.types.get? (type_id - 1) with
  | none => .panicked "type index out of bounds"
  | some entry => (lookup_concrete_type t.types type_id).map fun tpe =>
      (tpe, t.get_str entry.name)

/-- `convert_scope_type`; the kinds handled elsewhere hit `unreachable` in
the source, modelled as `none`. -/
def convert_scope_type : GhwHierarchyKind → Option ScopeType
  | .Block => some .VhdlBlock
  | .GenerateIf => some .VhdlIfGenerate
  | .GenerateFor => some .VhdlForGenerate
  | .Instance => some .Interface
  | .Package => some .VhdlPackage
  | .Generic => some .GhwGeneric
  | .Process => some .VhdlProcess
  | _ => none

/-- `convert_var_kind`; the kinds handled elsewhere hit `unreachable` in the
source, modelled as `none`. -/
def convert_var_kind : GhwHierarchyKind → Option (VarType × VarDirection)
  | .Signal => some (.Wire, .Implicit)
  | .PortIn => some (.Port, .Input)
  | .PortOut => some (.Port, .Output)
  | .PortInOut => some (.Port, .InOut)
  | .Buffer => some (.Wire, .Buffer)
  | .Linkage => some (.Wire, .Linkage)
  | _ => none

/-- Whether a hierarchy record kind declares a variable. -/
def isVarKind : GhwHierarchyKind → Bool
  | .Signal | .PortIn | .PortOut | .PortInOut | .Buffer | .Linkage => true
  | _ => false

/-- The decimal digits of a natural number as ASCII bytes (the source's
`format` of the literal position in the lazy enum mapping). -/
def decBytes (n : Nat) : List Nat := (toString n).data.map Char.toNat

/-- The lazy enum mapping built in `add_var`: position string versus literal
string for every literal. -/
def enumMapping (tables : GhwTables) (literals : List Nat) :
    List (List Nat × List Nat) :=
  literals.enum.map fun p => (decBytes p.1, tables.get_str p.2)

/-- The run of signal ids read for a `NineValueVec` variable. -/
def read_signal_ids : Nat → List (Option SignalInfo) → List Nat →
    PResult ((List Nat × List (Option SignalInfo)) × List Nat)
  | 0, signals, input => .ok (([], signals), input)
  | n + 1, signals, input => do
    let ((idx, s2), r) ← read_signal_id input signals
    let ((ids, s3), r2) ← read_signal_ids n s2 r
    .ok ((idx :: ids, s3), r2)

/-- One pending piece of work for `add_var`: declare a variable of a type, or
close the sub-scope a record opened. -/
inductive VarJob where
  | decl (name : List Nat) (type_id : Nat)
  | close
deriving DecidableEq, Repr

/-- `add_var`, defunctionalised: the source recurses over record fields; here
the recursion is driven by an explicit job list in the same depth-first
order, with a fuel bound on the number of jobs processed (the source's
recursion depth is bounded for every table its own type section can build,
so the wrappers pass ample fuel). -/
def add_var_jobs (tables : GhwTables) (kind : GhwHierarchyKind) :
    Nat → List VarJob → List (Option SignalInfo) → HB → List Nat →
    PResult ((List (Option SignalInfo) × HB) × List Nat)
  | _, [], signals, hb, input => .ok ((signals, hb), input)
  | 0, _ :: _, _, _, _ => .panicked "out of fuel"
  | fuel + 1, .close :: jobs, signals, hb, input =>
    add_var_jobs tables kind fuel jobs signals (hb.popScope) input
  | fuel + 1, .decl name type_id :: jobs, signals, hb, input => do
    let (vhdl_tpe, tpe_name) ← tables.get_type_and_name type_id
    match convert_var_kind kind with
    | none => .panicked "unreachable hierarchy kind"
    | some (var_tpe, dir) =>
      match vhdl_tpe with
      | .Enum _ literals =>
        let mapping := enumMapping tables literals
        let (enumId, hb1) := hb.addEnumType tpe_name mapping
        do
          let ((index, signals2), rest) ← read_signal_id input signals
          match signalRefFromIndex index with
          | none => .panicked "unwrap on None"
          | some signal_ref =>
            add_var_jobs tables kind fuel jobs signals2
              (hb1.addVar name var_tpe dir 1 none signal_ref (some enumId) (some tpe_name))
              rest
      | .NineValueBit _ _ => do
        let ((index, signals2), rest) ← read_signal_id input signals
        match signalRefFromIndex index with
        | none => .panicked "unwrap on None"
        | some signal_ref =>
          add_var_jobs tables kind fuel jobs signals2
            (hb.addVar name var_tpe dir 1 none signal_ref none (some tpe_name)) rest
      | .NineValueVec _ _ range => do
        let num_bits := (range.len.emod (2 ^ 32)).toNat
        let ((signal_ids, signals2), rest) ← read_signal_ids num_bits signals input
        match signal_ids with
        | [] => .panicked "index out of bounds"
        | first :: _ =>
          match signalRefFromIndex first with
          | none => .panicked "unwrap on None"
          | some signal_ref =>
            add_var_jobs tables kind fuel jobs signals2
              (hb.addVar name var_tpe dir num_bits (some range.as_var_index)
                signal_ref none (some tpe_name)) rest
      | .Record _ fields =>
        add_var_jobs tables kind fuel
          ((fields.map fun f => VarJob.decl (tables.get_str f.1) f.2) ++ .close :: jobs)
          signals (hb.addScope name .Module) input
      | _ => .panicked "todo: unsupported variable type"

/-- `read_hierarchy_var`: read the name and type id, then expand the variable
per `add_var`. -/
def read_hierarchy_var (tables : GhwTables) (kind : GhwHierarchyKind)
    (input : List Nat) (signals : List (Option SignalInfo)) (hb : HB) :
    PResult ((List (Option SignalInfo) × HB) × List Nat) := do
  let (name_id, r) ← read_string_id input
  let name := tables.get_str name_id
  let (tpe, r2) ← read_type_id r
  add_var_jobs tables kind ((tables.types.length + input.length + 2) * (input.length + 2))
    [.decl name tpe] signals hb r2

/-- `read_hierarchy_scope`: read the name and push a scope of the mapped
kind; `GenerateFor` additionally reads a type id and then hits `todo`. -/
def read_hierarchy_scope (tables : GhwTables) (input : List Nat)
    (kind : GhwHierarchyKind) (hb : HB) : PResult (HB × List Nat) := do
  let (name, r) ← read_string_id input
  if kind = .GenerateFor then do
    let (_iterType, _r2) ← read_type_id r
    .panicked "todo: read value"
  else
    match convert_scope_type kind with
    | none => .panicked "unreachable hierarchy kind"
    | some st => .ok (hb.addScope (tables.get_str name) st, r)

/-- The record loop of `read_hierarchy_section`: dispatch on the kind byte;
variable records bump the declared-variable counter by one and exceeding the
announced maximum is fatal. -/
def hier_loop (tables : GhwTables) (expected : Nat) :
    Nat → Nat → List (Option SignalInfo) → HB → List Nat →
    PResult ((List (Option SignalInfo) × HB) × List Nat)
  | 0, _, _, _, _ => .panicked "out of fuel"
  | fuel + 1, count, signals, hb, input => do
    let (b, rest) ← read_u8_p input
    match GhwHierarchyKind.ofByte b with
    | none => .err (.FailedToParseHierKind b)
    | some kind =>
      match kind with
      | .End => .ok ((signals, hb), rest)
      | .EndOfScope => hier_loop tables expected fuel count signals (hb.popScope) rest
      | .Design => .panicked "unreachable"
      | .Process => do
        let (_processName, r2) ← read_string_id rest
        hier_loop tables expected fuel count signals hb r2
      | .Block | .GenerateIf | .GenerateFor | .Instance | .Generic | .Package => do
        let (hb2, r2) ← read_hierarchy_scope tables rest kind hb
        hier_loop tables expected fuel count signals hb2 r2
      | .Signal | .PortIn | .PortOut | .PortInOut | .Buffer | .Linkage => do
        let ((signals2, hb2), r2) ← read_hierarchy_var tables kind rest signals hb
        let count2 := count + 1
        if count2 > expected then
          .err (.FailedToParseSection "hierarchy"
            ("more declared variables than expected " ++ toString expected))
        else hier_loop tables expected fuel count2 signals2 hb2 r2

/-- `read_hierarchy_section`: a 16-byte header (4 zeros, advisory scope
count, enforced declared-variable count, maximum signal id used to size the
slot table), the record loop, and the compaction of the slot table. -/
def read_hierarchy_section (hd : HeaderData) (tables : GhwTables)
    (input : List Nat) : PResult ((List SignalInfo × HB) × List Nat) := do
  let (hdr, r) ← read_exact_p 16 input
  let _ ← check_header_zeros "hierarchy" hdr
  let _expected_num_scopes ← u32_of_bytes hd ((hdr.drop 4).take 4)
  let expected_num_declared_vars ← u32_of_bytes hd ((hdr.drop 8).take 4)
  let max_signal_id ← u32_of_bytes hd ((hdr.drop 12).take 4)
  let signals : List (Option SignalInfo) := List.replicate (max_signal_id + 1) none
  let ((signals2, hb), r2) ←
    hier_loop tables expected_num_declared_vars (input.length + 1) 0 signals ⟨[], 0⟩ r
  .ok ((signals2.filterMap id, hb), r2)

/-- Wrap a signed varint value to 32 bits, as the source's `as i32` cast. -/
def wrap32 (v : Int) : Int := (v + 2 ^ 31).emod (2 ^ 32) - 2 ^ 31

/-- `read_signal_value`: one raw byte for `U8`, a signed varint for
`I32`/`I64`; `F64` reads 8 bytes and then hits `todo`. -/
def read_signal_value (tpe : SignalType) (input : List Nat) :
    PResult (SignalValue × List Nat) :=
  match tpe with
  | .U8 => (read_u8_p input).map fun p => (.U8 p.1, p.2)
  | .I32 =>
    match leb128_s input with
    | none => .err .Leb128Err
    | some (v, r) => .ok (.I32 (wrap32 v), r)
  | .I64 =>
    match leb128_s input with
    | none => .err .Leb128Err
    | some (v, r) => .ok (.I64 v, r)
  | .F64 => do
    let (_buf, _r) ← read_exact_p 8 input
    .panicked "todo: float value endianness"

/-- Modelled from the spec: the wave-store encoder
(`crate::wavemem::Encoder`, not part of `src/`): it records the
`(handle, time, value)` tuples emitted to it. -/
structure Encoder where
  emissions : List (Nat × Nat × SignalValue)
deriving DecidableEq, Repr

/-- Modelled from the spec: `Encoder::new` starts with no emissions. -/
def Encoder.new : Encoder := ⟨[]⟩

/-- Modelled from the spec: `Encoder::emit` appends one tuple. -/
def Encoder.emit (e : Encoder) (handle time : Nat) (value : SignalValue) : Encoder :=
  ⟨e.emissions ++ [(handle, time, value)]⟩

/-- Modelled from the spec: the reader produced by `Encoder::finish`, holding
exactly the emitted samples. -/
structure WaveReader where
  samples : List (Nat × Nat × SignalValue)
deriving DecidableEq, Repr

/-- Modelled from the spec: `Encoder::finish`. -/
def Encoder.finish (e : Encoder) : WaveReader := ⟨e.emissions⟩

/-- The inner loop of `read_snapshot_section` for one slot: one value per
physical id in the slot's run. The values are only printed by the source;
the print calls are modelled as the returned trace of
`(start id, value)` pairs. -/
def read_slot_values (tpe : SignalType) (start_id : Nat) :
    Nat → List Nat → PResult (List (Nat × SignalValue) × List Nat)
  | 0, input => .ok ([], input)
  | n + 1, input => do
    let (v, r) ← read_signal_value tpe input
    let (vs, r2) ← read_slot_values tpe start_id n r
    .ok ((start_id, v) :: vs, r2)

/-- The slot loop of `read_snapshot_section`, in declaration order. -/
def snapshot_values : List SignalInfo → List Nat →
    PResult (List (Nat × SignalValue) × List Nat)
  | [], input => .ok ([], input)
  | sig :: rest, input => do
    let (vs1, r) ← read_slot_values sig.tpe sig.start_id sig.len input
    let (vs2, r2) ← snapshot_values rest r
    .ok (vs1 ++ vs2, r2)

/-- `read_snapshot_section`: a 12-byte header (4 zeros and a timestamp), one
value per physical id of every slot, and the `ESN` end tag. The decoded
values are printed as TODO by the source and returned here as the trace;
nothing is emitted to the wave-store encoder. -/
def read_snapshot_section (hd : HeaderData) (signals : List SignalInfo)
    (input : List Nat) : PResult (List (Nat × SignalValue) × List Nat) := do
  let (h, r) ← read_exact_p 12 input
  let _ ← check_header_zeros "snapshot" h
  let _start_time := i64_of_bytes hd (h.drop 4)
  let (vs, r2) ← snapshot_values signals r
  let (_, r3) ← check_magic_end r2 "snapshot" [69, 83, 78, 0]
  .ok (vs, r3)

/-- The delta loop of `read_cycle_signals`: a delta of 0 terminates the time
step; a non-zero delta advances the cursor, a `usize`, so the release-build
addition wraps modulo `2 ^ 64`, and one value is read for the slot at the
wrapped cursor minus one; a wrapped cursor of 0 is the fatal
`Expected a first delta > 0` error. A varint that does not fit in 64 bits is
the leb128 crate's overflow error, surfaced at this read. Fuel bounds the
recursion; each iteration consumes at least the delta varint, so the
wrapper's fuel is never exhausted. -/
def read_cycle_signals_go (signals : List SignalInfo) :
    Nat → Nat → List Nat → PResult (List (Nat × SignalValue) × List Nat)
  | 0, _, _ => .panicked "out of fuel"
  | fuel + 1, pos, input =>
    match leb128_u input with
    | none => .err .Leb128Err
    | some (delta, rest) =>
      if 2 ^ 64 ≤ delta then .err .Leb128Err
      else if delta = 0 then .ok ([], rest)
      else
        let pos2 := (pos + delta) % 2 ^ 64
        if pos2 = 0 then
          .err (.FailedToParseSection "cycle" "Expected a first delta > 0")
        else
          match signals.get? (pos2 - 1) with
          | none => .panicked "index out of bounds"
          | some sig => do
            let (v, r2) ← read_signal_value sig.tpe rest
            let (vs, r3) ← read_cycle_signals_go signals fuel pos2 r2
            .ok ((sig.start_id, v) :: vs, r3)

/-- `read_cycle_signals`, with the cursor starting at 0. -/
def read_cycle_signals (signals : List SignalInfo) (input : List Nat) :
    PResult (List (Nat × SignalValue) × List Nat) :=
  read_cycle_signals_go signals (input.length + 1) 0 input

/-- The time-step loop of `read_cycle_section`: one delta list per time step,
then a signed time delta; a negative delta ends the section. -/
def cycle_loop (signals : List SignalInfo) :
    Nat → Nat → List Nat → PResult (List (Nat × SignalValue) × List Nat)
  | 0, _, _ => .panicked "out of fuel"
  | fuel + 1, time, input => do
    let (vs, r) ← read_cycle_signals signals input
    match leb128_s r with
    | none => .err .Leb128Err
    | some (timeDelta, r2) =>
      if timeDelta < 0 then .ok (vs, r2)
      else do
        let (vs2, r3) ← cycle_loop signals fuel (time + timeDelta.toNat) r2
        .ok (vs ++ vs2, r3)

/-- `read_cycle_section`: an 8-byte header carrying the starting timestamp
(no leading zeros), the time-step loop, and the `ECY` end tag. -/
def read_cycle_section (hd : HeaderData) (signals : List SignalInfo)
    (input : List Nat) : PResult (List (Nat × SignalValue) × List Nat) := do
  let (h, r) ← read_exact_p 8 input
  let start_time := (i64_of_bytes hd h).toNat
  let (vs, r2) ← cycle_loop signals (r.length + 1) start_time r
  let (_, r3) ← check_magic_end r2 "cycle" [69, 67, 89, 0]
  .ok (vs, r3)

/-- The entry loop of `read_directory`. -/
def directory_entries (hd : HeaderData) :
    Nat → List Nat → PResult (List (List Nat × Nat) × List Nat)
  | 0, input => .ok ([], input)
  | n + 1, input => do
    let (idBytes, r) ← read_exact_p 4 input
    let (posBytes, r2) ← read_exact_p 4 r
    let pos ← u32_of_bytes hd posBytes
    let (es, r3) ← directory_entries hd n r2
    .ok ((idBytes, pos) :: es, r3)

/-- `read_directory`: an 8-byte header whose second word is the entry count,
the entries, and the `EOD` end tag. -/
def read_directory (hd : HeaderData) (input : List Nat) :
    PResult (List (List Nat × Nat) × List Nat) := do
  let (h, r) ← read_exact_p 8 input
  let num_entries ← u32_of_bytes hd ((h.drop 4).take 4)
  let (sections, r2) ← directory_entries hd num_entries r
  let (_, r3) ← check_magic_end r2 "directory" [69, 79, 68, 0]
  .ok (sections, r3)

/-- The section loop of `read_signals`: dispatch `SNP`, `CYC` and `DIR`
sections until the `TAI` tailer tag. The encoder is created before the loop
and `finish`ed at the tailer; no section hands it any value, so it is
threaded through unchanged, while the values the sections decode and print
are accumulated as the trace. -/
def signals_loop (hd : HeaderData) (signals : List SignalInfo) (encoder : Encoder) :
    Nat → List (Nat × SignalValue) → List Nat →
    PResult ((WaveReader × List (Nat × SignalValue)) × List Nat)
  | 0, _, _ => .panicked "out of fuel"
  | fuel + 1, trace, input => do
    let (mark, r) ← read_exact_p 4 input
    if mark = [83, 78, 80, 0] then do
      let (vs, r2) ← read_snapshot_section hd signals r
      signals_loop hd signals encoder fuel (trace ++ vs) r2
    else if mark = [67, 89, 67, 0] then do
      let (vs, r2) ← read_cycle_section hd signals r
      signals_loop hd signals encoder fuel (trace ++ vs) r2
    else if mark = [68, 73, 82, 0] then do
      let (_sections, r2) ← read_directory hd r
      signals_loop hd signals encoder fuel trace r2
    else if mark = [84, 65, 73, 0] then .ok ((encoder.finish, trace), r)
    else .err (.UnexpectedSectionE mark)

/-- `read_signals`: create the wave-store encoder, run the section loop, and
return the finished reader together with the trace of decoded values. -/
def read_signals (hd : HeaderData) (signals : List SignalInfo) (input : List Nat) :
    PResult ((WaveReader × List (Nat × SignalValue)) × List Nat) :=
  signals_loop hd signals Encoder.new (input.length + 1) [] input

/-- The amended-claim invariant of the type table: no alias entry points at
another alias entry. -/
def aliasInvariant (table : List VhdlType) : Bool :=
  table.all fun t =>
    match t with
    | .TypeAlias _ base =>
      match table.get? (base - 1) with
      | some u => !u.isAlias
      | none => true
    | _ => false || true

@[simp]
theorem PResult.bind_ok {α β : Type} (a : α) (f : α → PResult β) :
    PResult.bind (.ok a) f = f a := rfl

@[simp]
theorem PResult.bind_err {α β : Type} (e : GhwParseError) (f : α → PResult β) :
    PResult.bind (.err e) f = .err e := rfl

@[simp]
theorem PResult.bind_panicked {α β : Type} (m : String) (f : α → PResult β) :
    PResult.bind (.panicked m) f = .panicked m := rfl

@[simp]
theorem PResult.map_err {α β : Type} (f : α → β) (e : GhwParseError) :
    PResult.map f (.err e) = .err e := rfl

@[simp]
theorem PResult.map_panicked {α β : Type} (f : α → β) (m : String) :
    PResult.map f (.panicked m) = .panicked m := rfl

@[simp]
theorem PResult.pure_eq_ok {α : Type} (a : α) : (pure a : PResult α) = .ok a := rfl

@[simp]
theorem PResult.monad_bind_eq_bind {α β : Type} (x : PResult α) (f : α → PResult β) :
    x >>= f = PResult.bind x f := rfl

theorem read_exact_append {n : Nat} {l1 l2 : List Nat} (h : l1.length = n) :
    read_exact_p n (l1 ++ l2) = .ok (l1, l2) := by
  subst h
  simp [read_exact_p, List.take_left, List.drop_left]

/-- C9: the format probe `is_ghw` returns a boolean and always leaves the
read cursor at position 0 and the stream contents unchanged, whether or not
it recognises the format. -/
theorem c9_probe_restores_cursor (s : ByteStream) :
    (is_ghw s).2.pos = 0 ∧ (is_ghw s).2.data = s.data :=
  ⟨rfl, rfl⟩

/-- C10: a 1-based id field whose varint decodes to 0 makes `read_type_id`
and `read_signal_id` panic in `NonZeroU32::new(0).unwrap()` instead of
returning a structured `GhwParseError`: here on the one-byte varint `0` for a
type id, and on the two-byte varint encoding of 0 for a signal handle with a
two-entry slot table. -/
theorem c10_zero_id_panics :
    read_type_id [0] = .panicked "NonZeroU32 unwrap on zero" ∧
    read_signal_id [128, 0] (List.replicate 2 none) =
      .panicked "NonZeroU32 unwrap on zero" :=
  ⟨rfl, rfl⟩

/-- C7 counterexample: a stream with the correct 9-byte magic, version 0,
endianness flag 1 and reserved byte 0 — so the claim says it is accepted —
is rejected with `UnexpectedHeader` because its first post-magic byte is 15
rather than 16. -/
theorem c7_counterexample :
    read_ghw_header ([71, 72, 68, 76, 119, 97, 118, 101, 10] ++ [15, 0, 0, 1, 0, 0, 0]) =
      .err (.UnexpectedHeaderE ⟨0, false, 0, 0⟩) :=
  rfl

/-- C5 counterexample: with `max_signal_id = 1` (a two-entry slot table) the
handle 0 is outside `[1, max_signal_id]`, yet `read_signal_id` panics in
`NonZeroU32::new(0).unwrap()` instead of failing with the structured
`FailedToParseSection` error the claim promises for out-of-range handles. -/
theorem c5_counterexample :
    read_signal_id [0] (List.replicate 2 none) =
      .panicked "NonZeroU32 unwrap on zero" :=
  rfl

/-- C4 counterexample: a delta list whose first record is 0 is not a fatal
parse error — `read_cycle_signals` returns `Ok` with no values, because the
zero test breaks out of the loop before the cursor guard is reached. -/
theorem c4_counterexample :
    read_cycle_signals [⟨1, 1, .U8⟩] [0] = .ok ([], []) :=
  rfl

/-- C6: evaluating the type-section decoder on a table consisting of an
enum, a `SubtypeScalar` alias of it, and a `SubtypeScalar` whose base names
that alias, produces an alias entry that points at another alias entry —
`from_subtype_scalar` stores the unresolved base id — violating the
alias-depth invariant the claim states (and that `lookup_concrete_type`
debug-asserts). -/
theorem c6_alias_chain_bug :
    read_type_section ⟨0, false, 0, 0⟩ []
        ([0, 0, 0, 0, 3, 0, 0, 0] ++ [23, 0, 2, 0, 0] ++ [34, 0, 1, 23, 0, 1] ++
          [34, 0, 2, 23, 0, 1] ++ [0]) =
      .ok ([.Enum 0 [0, 0], .TypeAlias 0 1, .TypeAlias 0 2], []) ∧
    aliasInvariant [.Enum 0 [0, 0], .TypeAlias 0 1, .TypeAlias 0 2] = false :=
  ⟨rfl, rfl⟩

/-- C1: running the signal pass on a snapshot section holding one `U8` value
for the single declared slot decodes that value (it appears in the print
trace), but the finished reader contains no samples at all — the sections
never emit anything to the wave-store encoder. -/
theorem c1_decoded_values_never_reach_encoder :
    read_signals ⟨0, false, 0, 0⟩ [⟨1, 1, .U8⟩]
        ([83, 78, 80, 0] ++ [0, 0, 0, 0, 0, 0, 0, 0, 0, 0, 0, 0] ++ [5] ++
          [69, 83, 78, 0] ++ [84, 65, 73, 0]) =
      .ok ((⟨[]⟩, [(1, .U8 5)]), []) :=
  rfl

/-- C5 (amended): for a handle varint `idx`: a handle past the end of the
slot table fails with the structured `FailedToParseSection` error; the
handle 0 (with a non-empty slot table) panics rather than erroring; an
in-range handle seen for the first time allocates a `U8` slot with start and
end id equal to the handle; a handle whose slot exists is accepted without
modifying the table. -/
theorem c5_amended (input : List Nat) (idx : Nat) (rest : List Nat)
    (signals : List (Option SignalInfo)) (h : leb128_u input = some (idx, rest)) :
    (signals.length ≤ idx →
      read_signal_id input signals = .err (.FailedToParseSection "hierarchy"
        ("SignalId too large " ++ toString idx ++ " > " ++ toString signals.length))) ∧
    (idx = 0 → idx < signals.length →
      read_signal_id input signals = .panicked "NonZeroU32 unwrap on zero") ∧
    (1 ≤ idx → idx < signals.length → signals.getD idx none = none →
      read_signal_id input signals =
        .ok ((idx, signals.set idx (some ⟨idx, idx, .U8⟩)), rest)) ∧
    (1 ≤ idx → idx < signals.length → (signals.getD idx none).isSome →
      read_signal_id input signals = .ok ((idx, signals), rest)) := by
  refine ⟨fun hle => ?_, fun h0 hlt => ?_, fun h1 hlt hnone => ?_, fun h1 hlt hsome => ?_⟩
  · simp [read_signal_id, h, hle]
  · subst h0
    simp [read_signal_id, h, Nat.not_le.mpr hlt]
  · have hne : idx ≠ 0 := by omega
    rw [List.getD_eq_getElem?_getD] at hnone
    simp [read_signal_id, h, Nat.not_le.mpr hlt, hne, hnone]
  · have hne : idx ≠ 0 := by omega
    obtain ⟨si, hsi⟩ := Option.isSome_iff_exists.mp hsome
    rw [List.getD_eq_getElem?_getD] at hsi
    simp [read_signal_id, h, Nat.not_le.mpr hlt, hne, hsi]

/-- C5 witness: the amended theorem evaluated on the one-byte varint 2 with
a three-entry slot table: the handle is in range, unseen, and allocates the
slot `(2, 2, U8)`. -/
theorem c5_amended_witness :
    leb128_u [2] = some (2, []) ∧ 1 ≤ 2 ∧ 2 < (List.replicate 3 (none : Option SignalInfo)).length ∧
    read_signal_id [2] (List.replicate 3 none) =
      .ok ((2, (List.replicate 3 (none : Option SignalInfo)).set 2 (some ⟨2, 2, .U8⟩)), []) :=
  ⟨rfl, by decide, by decide,
    (c5_amended [2] 2 [] (List.replicate 3 none) rfl).2.2.1 (by decide) (by decide) (by decide)⟩

/-- C4 (amended): in the cycle delta loop, a delta record of 0 terminates
the current time step — including when it is the very first record, which is
not an error; every non-zero delta advances the cursor by the delta, with
the `usize` addition wrapping modulo `2 ^ 64`, and one value is read for the
slot at the wrapped cursor minus one; the `Expected a first delta > 0` error
fires exactly when a non-zero delta wraps the cursor to 0. -/
theorem c4_amended :
    (∀ (signals : List SignalInfo) (fuel pos : Nat) (input rest : List Nat),
        leb128_u input = some (0, rest) →
        read_cycle_signals_go signals (fuel + 1) pos input = .ok ([], rest)) ∧
    (∀ (signals : List SignalInfo) (fuel pos delta : Nat)
        (input rest rest2 : List Nat) (sig : SignalInfo) (v : SignalValue),
        leb128_u input = some (delta, rest) → delta ≠ 0 → delta < 2 ^ 64 →
        (pos + delta) % 2 ^ 64 ≠ 0 →
        signals.get? ((pos + delta) % 2 ^ 64 - 1) = some sig →
        read_signal_value sig.tpe rest = .ok (v, rest2) →
        read_cycle_signals_go signals (fuel + 1) pos input =
          PResult.bind (read_cycle_signals_go signals fuel ((pos + delta) % 2 ^ 64) rest2)
            (fun p => .ok ((sig.start_id, v) :: p.1, p.2))) ∧
    (∀ (signals : List SignalInfo) (fuel pos delta : Nat) (input rest : List Nat),
        leb128_u input = some (delta, rest) → delta ≠ 0 → delta < 2 ^ 64 →
        (pos + delta) % 2 ^ 64 = 0 →
        read_cycle_signals_go signals (fuel + 1) pos input =
          .err (.FailedToParseSection "cycle" "Expected a first delta > 0")) := by
  refine ⟨?_, ?_, ?_⟩
  · intro signals fuel pos input rest h
    simp [read_cycle_signals_go, h]
  · intro signals fuel pos delta input rest rest2 sig v h hd hb hpos hsig hv
    have hnb : ¬(2 ^ 64 ≤ delta) := Nat.not_le.mpr hb
    simp only [read_cycle_signals_go, h, if_neg hnb, if_neg hd, if_neg hpos, hsig, hv,
      PResult.bind_ok, PResult.monad_bind_eq_bind]
  · intro signals fuel pos delta input rest h hd hb hpos
    have hnb : ¬(2 ^ 64 ≤ delta) := Nat.not_le.mpr hb
    simp only [read_cycle_signals_go, h, if_neg hnb, if_neg hd, if_pos hpos]

/-- C4 witness: the amended theorem at concrete inputs — a first delta of 0
terminates immediately with the remaining bytes untouched; a delta of 1
reads the value 9 for slot 1; and the varint `u64::MAX` (nine `0xFF` bytes
then `0x01`) after a first delta of 1 wraps the cursor from 1 back to 0,
firing the `Expected a first delta > 0` error. -/
theorem c4_amended_witness :
    leb128_u [0, 7] = some (0, [7]) ∧
    read_cycle_signals_go [⟨1, 1, .U8⟩] 3 0 [0, 7] = .ok ([], [7]) ∧
    read_cycle_signals_go [⟨1, 1, .U8⟩] 3 0 [1, 9, 0] = .ok ([(1, .U8 9)], []) ∧
    (1 + (2 ^ 64 - 1)) % 2 ^ 64 = 0 ∧
    read_cycle_signals_go [⟨1, 1, .U8⟩] 2 1
        [255, 255, 255, 255, 255, 255, 255, 255, 255, 1] =
      .err (.FailedToParseSection "cycle" "Expected a first delta > 0") :=
  ⟨rfl, c4_amended.1 [⟨1, 1, .U8⟩] 2 0 [0, 7] [7] rfl,
    by
      rw [c4_amended.2.1 [⟨1, 1, .U8⟩] 2 0 1 [1, 9, 0] [9, 0] [0] ⟨1, 1, .U8⟩ (.U8 9)
        rfl (by decide) (by decide) (by decide) (by decide) rfl]
      rfl,
    by decide,
    c4_amended.2.2 [⟨1, 1, .U8⟩] 1 1 (2 ^ 64 - 1)
      [255, 255, 255, 255, 255, 255, 255, 255, 255, 1] []
      (by decide) (by decide) (by decide) (by decide)⟩

/-- C7 (amended): header validation fails with `UnsupportedCompression`
for the gzip and bzip2 magics, with `UnexpectedHeaderMagic` on any other
mismatch of the 9-byte signature, and with `UnexpectedHeader` when the
version exceeds 1, the endianness flag is neither 1 nor 2, the reserved
slot is non-zero, or additionally when the first post-magic byte is not 16
or the second is not 0; otherwise the header is accepted. -/
theorem c7_amended :
    (∀ b0 b1 b2 b3 b4 b5 b6 : Nat, ∀ rest : List Nat,
      read_ghw_header (GHW_HEADER_START ++ ([b0, b1, b2, b3, b4, b5, b6] ++ rest)) =
        (if b0 ≠ 16 ∨ b1 ≠ 0 ∨ b2 > 1 ∨ (b3 ≠ 1 ∧ b3 ≠ 2) ∨ b6 ≠ 0 then
          .err (.UnexpectedHeaderE ⟨b2, b3 == 2, b4, b5⟩)
        else .ok (⟨b2, b3 == 2, b4, b5⟩, rest))) ∧
    (∀ rest : List Nat,
      read_ghw_header (31 :: 139 :: rest) = .err (.UnsupportedCompression "gzip")) ∧
    (∀ rest : List Nat,
      read_ghw_header (66 :: 90 :: rest) = .err (.UnsupportedCompression "bzip2")) ∧
    (∀ c0 c1 : Nat, ∀ rest : List Nat,
      [c0, c1] ≠ [71, 72] → [c0, c1] ≠ [31, 139] → [c0, c1] ≠ [66, 90] →
      read_ghw_header (c0 :: c1 :: rest) = .err (.UnexpectedHeaderMagicE [c0, c1])) ∧
    (∀ m rest : List Nat, m.length = 7 → m ≠ GHW_HEADER_START.drop 2 →
      read_ghw_header (71 :: 72 :: (m ++ rest)) =
        .err (.UnexpectedHeaderMagicE ([71, 72] ++ m))) := by
  refine ⟨?_, ?_, ?_, ?_, ?_⟩
  · intro b0 b1 b2 b3 b4 b5 b6 rest
    have e1 : read_exact_p 2 (GHW_HEADER_START ++ ([b0, b1, b2, b3, b4, b5, b6] ++ rest)) =
        .ok ([71, 72], [68, 76, 119, 97, 118, 101, 10] ++ ([b0, b1, b2, b3, b4, b5, b6] ++ rest)) :=
      @read_exact_append 2 [71, 72]
        ([68, 76, 119, 97, 118, 101, 10] ++ ([b0, b1, b2, b3, b4, b5, b6] ++ rest)) rfl
    have e2 : read_exact_p 7 ([68, 76, 119, 97, 118, 101, 10] ++ ([b0, b1, b2, b3, b4, b5, b6] ++ rest)) =
        .ok ([68, 76, 119, 97, 118, 101, 10], [b0, b1, b2, b3, b4, b5, b6] ++ rest) :=
      @read_exact_append 7 [68, 76, 119, 97, 118, 101, 10] ([b0, b1, b2, b3, b4, b5, b6] ++ rest) rfl
    have e3 : read_exact_p 7 ([b0, b1, b2, b3, b4, b5, b6] ++ rest) =
        .ok ([b0, b1, b2, b3, b4, b5, b6], rest) :=
      @read_exact_append 7 [b0, b1, b2, b3, b4, b5, b6] rest rfl
    simp only [read_ghw_header, PResult.monad_bind_eq_bind, e1, PResult.bind_ok, e2, e3]
    simp only [GHW_HEADER_START, List.getD, List.drop]
    by_cases h01 : b0 ≠ 16 ∨ b1 ≠ 0 <;> by_cases h2 : b2 > 1 <;>
      by_cases h3 : b3 ≠ 1 ∧ b3 ≠ 2 <;> by_cases h6 : b6 ≠ 0 <;>
      simp [h01, h2, h3, h6]
  · intro rest
    have e1 : read_exact_p 2 (31 :: 139 :: rest) = .ok ([31, 139], rest) :=
      @read_exact_append 2 [31, 139] rest rfl
    simp [read_ghw_header, e1]
  · intro rest
    have e1 : read_exact_p 2 (66 :: 90 :: rest) = .ok ([66, 90], rest) :=
      @read_exact_append 2 [66, 90] rest rfl
    simp [read_ghw_header, e1]
  · intro c0 c1 rest h1 h2 h3
    have e1 : read_exact_p 2 (c0 :: c1 :: rest) = .ok ([c0, c1], rest) :=
      @read_exact_append 2 [c0, c1] rest rfl
    simp [read_ghw_header, e1, h1, h2, h3]
  · intro m rest hm hne
    have e1 : read_exact_p 2 (71 :: 72 :: (m ++ rest)) = .ok ([71, 72], m ++ rest) :=
      @read_exact_append 2 [71, 72] (m ++ rest) rfl
    have e2 : read_exact_p 7 (m ++ rest) = .ok (m, rest) := @read_exact_append 7 m rest hm
    simp [read_ghw_header, e1, e2, hne]

/-- C7 witness: the amended theorem at concrete inputs — a fully valid header
(version 1, little-endian, reserved 0) is accepted, and the gzip magic is
rejected with `UnsupportedCompression gzip`. -/
theorem c7_amended_witness :
    read_ghw_header (GHW_HEADER_START ++ ([16, 0, 1, 1, 4, 0, 0] ++ [9])) =
      .ok (⟨1, false, 4, 0⟩, [9]) ∧
    read_ghw_header [31, 139] = .err (.UnsupportedCompression "gzip") :=
  ⟨by rw [c7_amended.1 16 0 1 1 4 0 0 [9]]; rfl, c7_amended.2.1 []⟩

/-- C8: for any state of the hierarchy record loop, reading one variable-like
record (whatever number of leaves its type expands to) increments the
declared-variable counter by exactly one, and as soon as the new counter
exceeds the announced maximum the load fails with
`FailedToParseSection hierarchy`; otherwise the loop continues with the
incremented counter. -/
theorem c8_declared_var_overflow (tables : GhwTables) (expected fuel count : Nat)
    (signals signals2 : List (Option SignalInfo)) (hb hb2 : HB)
    (k : Nat) (kind : GhwHierarchyKind) (rest0 rest1 : List Nat)
    (hk : GhwHierarchyKind.ofByte k = some kind)
    (hv : isVarKind kind = true)
    (hread : read_hierarchy_var tables kind rest0 signals hb = .ok ((signals2, hb2), rest1)) :
    hier_loop tables expected (fuel + 1) count signals hb (k :: rest0) =
      if count + 1 > expected then
        .err (.FailedToParseSection "hierarchy"
          ("more declared variables than expected " ++ toString expected))
      else hier_loop tables expected fuel (count + 1) signals2 hb2 rest1 := by
  cases kind <;> simp [isVarKind] at hv <;>
    simp [hier_loop, read_u8_p, hk, hread]

/-- C8 witness: the step theorem at a concrete state — with 2 variables
announced and 2 already counted, a third `Signal` record of a nine-value-bit
type is read successfully and the loop then fails with the structured
hierarchy error. -/
theorem c8_declared_var_overflow_witness :
    GhwHierarchyKind.ofByte 16 = some .Signal ∧ isVarKind .Signal = true ∧
    read_hierarchy_var ⟨[.NineValueBit 0 [0, 1, 2, 3, 4, 5, 6, 7, 8]], [[120]]⟩ .Signal
        [0, 1, 1] (List.replicate 4 none) ⟨[], 0⟩ =
      .ok (((List.replicate 4 (none : Option SignalInfo)).set 1 (some ⟨1, 1, .U8⟩),
        ⟨[.addVar [120] .Wire .Implicit 1 none 1 none (some [120])], 0⟩), []) ∧
    hier_loop ⟨[.NineValueBit 0 [0, 1, 2, 3, 4, 5, 6, 7, 8]], [[120]]⟩ 2 6 2
        (List.replicate 4 none) ⟨[], 0⟩ [16, 0, 1, 1] =
      .err (.FailedToParseSection "hierarchy" "more declared variables than expected 2") := by
  refine ⟨rfl, rfl, by decide, ?_⟩
  rw [c8_declared_var_overflow ⟨[.NineValueBit 0 [0, 1, 2, 3, 4, 5, 6, 7, 8]], [[120]]⟩ 2 5 2
    (List.replicate 4 none)
    ((List.replicate 4 (none : Option SignalInfo)).set 1 (some ⟨1, 1, .U8⟩))
    ⟨[], 0⟩ ⟨[.addVar [120] .Wire .Implicit 1 none 1 none (some [120])], 0⟩
    16 .Signal [0, 1, 1] [] rfl rfl (by decide)]
  rfl

/-- The canonical codes of all literals, when every literal maps. -/
def allCodes (strings : List (List Nat)) : List Nat → Option (List Nat)
  | [] => some []
  | l :: ls =>
    match litCode strings l with
    | none => none
    | some c => (allCodes strings ls).map (c :: ·)

/-- Whether a code list is fresh with respect to a coverage mask, updating
the mask left to right — the duplicate test of `try_parse_nine_value_bit`. -/
def codesOk (covered : List Bool) : List Nat → Bool
  | [] => true
  | c :: cs => !(covered.getD c false) && codesOk (covered.set c true) cs

/-- Write a code list into a lookup table at consecutive positions. -/
def writeSeq : List Nat → Nat → List Nat → List Nat
  | lut, _, [] => lut
  | lut, ii, c :: cs => writeSeq (lut.set ii c) (ii + 1) cs

/-- The promotion condition of claim C3: exactly 9 literals, each mapping
under the canonical 9-state mapping, with pairwise distinct codes. -/
abbrev c3cond (strings : List (List Nat)) (literals : List Nat) : Prop :=
  literals.length = 9 ∧ (∀ l ∈ literals, (litCode strings l).isSome) ∧
    (literals.filterMap (litCode strings)).Nodup

theorem nvb_go_eq (strings : List (List Nat)) (name : Nat) :
    ∀ (ls : List Nat) (ii : Nat) (lut : List Nat) (covered : List Bool),
      nvb_go strings name ls ii lut covered =
        match allCodes strings ls with
        | none => none
        | some cs =>
          if codesOk covered cs then some (.NineValueBit name (writeSeq lut ii cs))
          else none := by
  intro ls
  induction ls with
  | nil => intro ii lut covered; simp [nvb_go, allCodes, codesOk, writeSeq]
  | cons l ls ih =>
    intro ii lut covered
    cases hcode : litCode strings l with
    | none => simp [nvb_go, allCodes, hcode]
    | some out =>
      simp only [nvb_go, allCodes, hcode]
      rw [ih]
      cases hall : allCodes strings ls with
      | none =>
        by_cases hcov : covered.getD out false = true
        · rw [if_pos hcov]
          rfl
        · rw [if_neg hcov]
          rfl
      | some cs =>
        simp only [Option.map_some]
        show _ = if codesOk covered (out :: cs) = true then
            some (VhdlType.NineValueBit name (writeSeq lut ii (out :: cs))) else none
        simp only [codesOk, writeSeq]
        by_cases hcov : covered.getD out false = true
        · rw [if_pos hcov, hcov]
          rfl
        · have hcov2 : covered.getD out false = false := by
            simpa using hcov
          rw [if_neg hcov, hcov2]
          simp only [Bool.not_false, Bool.true_and]

theorem allCodes_some (strings : List (List Nat)) :
    ∀ (ls cs : List Nat), allCodes strings ls = some cs →
      cs = ls.filterMap (litCode strings) ∧ cs.length = ls.length ∧
      (∀ i (h : i < ls.length), litCode strings (ls.get ⟨i, h⟩) = cs.get? i) ∧
      (∀ l ∈ ls, (litCode strings l).isSome) := by
  intro ls
  induction ls with
  | nil =>
    intro cs h
    simp only [allCodes] at h
    injection h with h'
    simp [← h']
  | cons l ls ih =>
    intro cs h
    simp only [allCodes] at h
    cases hcode : litCode strings l with
    | none => rw [hcode] at h; simp at h
    | some c =>
      rw [hcode] at h
      cases hall : allCodes strings ls with
      | none => rw [hall] at h; simp at h
      | some cs' =>
        rw [hall] at h
        simp only [Option.map_some] at h
        injection h with h'
        obtain ⟨he, hlen, hget, hsome⟩ := ih cs' hall
        refine ⟨?_, ?_, ?_, ?_⟩
        · simp [← h', List.filterMap_cons, hcode, he]
        · simp [← h', hlen]
        · intro i hi
          cases i with
          | zero => simp [← h', hcode]
          | succ j =>
            have hj : j < ls.length := by simpa using hi
            simpa [← h'] using hget j hj
        · intro x hx
          rcases List.mem_cons.mp hx with hx1 | hx2
          · subst hx1; simp [hcode]
          · exact hsome x hx2

theorem allCodes_of_all_some (strings : List (List Nat)) :
    ∀ ls : List Nat, (∀ l ∈ ls, (litCode strings l).isSome) →
      allCodes strings ls = some (ls.filterMap (litCode strings)) := by
  intro ls
  induction ls with
  | nil => intro _; rfl
  | cons l ls ih =>
    intro h
    have hl : (litCode strings l).isSome := h l (List.mem_cons_self l ls)
    obtain ⟨c, hc⟩ := Option.isSome_iff_exists.mp hl
    simp [allCodes, hc, ih fun x hx => h x (List.mem_cons_of_mem l hx),
      List.filterMap_cons]

theorem litCode_lt_nine (strings : List (List Nat)) (l c : Nat)
    (h : litCode strings l = some c) : c < 9 := by
  rcases hext : extract_char (strings.getD l []) with _ | ch
  · rw [litCode, hext] at h; simp at h
  · rw [litCode, hext] at h
    simp only [Option.some_bind] at h
    unfold bit_char_to_num at h
    repeat' split at h
    all_goals first
      | (injection h with h2; omega)
      | simp at h

theorem codesOk_iff : ∀ (cs : List Nat) (covered : List Bool),
    covered.length = 9 → (∀ c ∈ cs, c < 9) →
    (codesOk covered cs = true ↔
      cs.Nodup ∧ ∀ c ∈ cs, covered.getD c false = false) := by
  intro cs
  induction cs with
  | nil => intro covered _ _; simp [codesOk]
  | cons c cs ih =>
    intro covered hlen hall
    have hc9 : c < 9 := hall c (List.mem_cons_self c cs)
    have hclen : c < covered.length := by omega
    have ihi := ih (covered.set c true) (by simp [hlen])
      fun d hd => hall d (List.mem_cons_of_mem c hd)
    constructor
    · intro h
      simp only [codesOk, Bool.and_eq_true, Bool.not_eq_true'] at h
      obtain ⟨h1, h2⟩ := h
      obtain ⟨hnod, hcov⟩ := ihi.mp h2
      have hcnot : c ∉ cs := by
        intro hmem
        have := hcov c hmem
        rw [List.getD_eq_getElem?_getD, List.getElem?_set_self hclen] at this
        simp at this
      refine ⟨List.nodup_cons.mpr ⟨hcnot, hnod⟩, ?_⟩
      intro d hd
      rcases List.mem_cons.mp hd with hd1 | hd2
      · subst hd1; exact h1
      · have hne : d ≠ c := fun he => hcnot (he ▸ hd2)
        have := hcov d hd2
        rwa [List.getD_eq_getElem?_getD, List.getElem?_set_ne (fun he => hne he.symm),
          ← List.getD_eq_getElem?_getD] at this
    · intro ⟨hnod, hcov⟩
      obtain ⟨hcnot, hnod'⟩ := List.nodup_cons.mp hnod
      simp only [codesOk, Bool.and_eq_true, Bool.not_eq_true']
      refine ⟨hcov c (List.mem_cons_self c cs), ?_⟩
      apply ihi.mpr
      refine ⟨hnod', ?_⟩
      intro d hd
      have hne : d ≠ c := fun he => hcnot (he ▸ hd)
      rw [List.getD_eq_getElem?_getD, List.getElem?_set_ne (fun he => hne he.symm),
        ← List.getD_eq_getElem?_getD]
      exact hcov d (List.mem_cons_of_mem c hd)

theorem writeSeq_length : ∀ (cs lut : List Nat) (ii : Nat),
    (writeSeq lut ii cs).length = lut.length := by
  intro cs
  induction cs with
  | nil => intro lut ii; rfl
  | cons c cs ih => intro lut ii; simp [writeSeq, ih]

theorem writeSeq_get_lt : ∀ (cs lut : List Nat) (ii j : Nat), j < ii →
    (writeSeq lut ii cs).get? j = lut.get? j := by
  intro cs
  induction cs with
  | nil => intro lut ii j _; rfl
  | cons c cs ih =>
    intro lut ii j hj
    simp only [writeSeq]
    rw [ih (lut.set ii c) (ii + 1) j (by omega)]
    simp only [List.get?_eq_getElem?]
    exact List.getElem?_set_ne (by omega)

theorem writeSeq_get : ∀ (cs lut : List Nat) (ii k : Nat), k < cs.length →
    ii + cs.length ≤ lut.length →
    (writeSeq lut ii cs).get? (ii + k) = cs.get? k := by
  intro cs
  induction cs with
  | nil => intro lut ii k hk _; simp at hk
  | cons c cs ih =>
    intro lut ii k hk hle
    cases k with
    | zero =>
      simp only [writeSeq, Nat.add_zero]
      rw [writeSeq_get_lt cs (lut.set ii c) (ii + 1) ii (by omega)]
      simp only [List.get?_eq_getElem?]
      rw [List.getElem?_set_self (by simp at hle ⊢; omega)]
      simp
    | succ j =>
      simp only [writeSeq]
      have harith : ii + (j + 1) = (ii + 1) + j := by omega
      rw [harith, ih (lut.set ii c) (ii + 1) j (by simpa using hk)
        (by simp at hle ⊢; omega)]
      simp

theorem try_parse_char (strings : List (List Nat)) (name : Nat)
    (literals : List Nat) :
    try_parse_nine_value_bit strings name literals =
      if c3cond strings literals then
        some (.NineValueBit name
          (writeSeq (List.replicate 9 0) 0 (literals.filterMap (litCode strings))))
      else none := by
  by_cases h9 : literals.length = 9
  · rw [try_parse_nine_value_bit, if_neg (by omega),
      nvb_go_eq strings name literals 0 (List.replicate 9 0) (List.replicate 9 false)]
    by_cases hsome : ∀ l ∈ literals, (litCode strings l).isSome
    · rw [allCodes_of_all_some strings literals hsome]
      have hlt : ∀ c ∈ literals.filterMap (litCode strings), c < 9 := by
        intro c hc
        obtain ⟨l, _, hl⟩ := List.mem_filterMap.mp hc
        exact litCode_lt_nine strings l c hl
      have hrep : ∀ c ∈ literals.filterMap (litCode strings),
          (List.replicate 9 false).getD c false = false := by
        intro c _
        rw [List.getD_eq_getElem?_getD, List.getElem?_replicate]
        split <;> rfl
      show (if codesOk (List.replicate 9 false) (literals.filterMap (litCode strings)) = true
          then some (VhdlType.NineValueBit name
            (writeSeq (List.replicate 9 0) 0 (literals.filterMap (litCode strings))))
          else none) = _
      by_cases hnod : (literals.filterMap (litCode strings)).Nodup
      · have hok : codesOk (List.replicate 9 false)
            (literals.filterMap (litCode strings)) = true :=
          (codesOk_iff _ _ (by simp) hlt).mpr ⟨hnod, hrep⟩
        rw [if_pos hok, if_pos ⟨h9, hsome, hnod⟩]
      · have hnok : ¬(codesOk (List.replicate 9 false)
            (literals.filterMap (litCode strings)) = true) := fun hok =>
          hnod ((codesOk_iff _ _ (by simp) hlt).mp hok).1
        rw [if_neg hnok, if_neg (fun hcontra => hnod hcontra.2.2)]
    · cases hall : allCodes strings literals with
      | none => rw [if_neg (fun hcontra => hsome hcontra.2.1)]
      | some cs => exact absurd (allCodes_some strings literals cs hall).2.2.2 hsome
  · rw [try_parse_nine_value_bit, if_pos (by omega),
      if_neg (fun hcontra => h9 hcontra.1)]

/-- C3: an enum is promoted to `NineValueBit` iff it has exactly 9 literals,
each literal (taken whole if length 1, or its middle character if length 3)
maps under the canonical mapping to the 9-state alphabet, and the produced
codes are pairwise distinct — in which case they are a permutation of
`0..8`, the stored table satisfies `lut i = code of literal i`, and any
enum failing the test becomes a plain `Enum`. -/
theorem c3_nine_value_promotion (strings : List (List Nat)) (name : Nat)
    (literals : List Nat) (_hin : ∀ l ∈ literals, l < strings.length) :
    ((∃ lut, VhdlType.from_enum strings name literals = .NineValueBit name lut) ↔
      c3cond strings literals) ∧
    (∀ lut : List Nat,
      VhdlType.from_enum strings name literals = .NineValueBit name lut →
      (literals.filterMap (litCode strings)).Perm (List.range 9) ∧
      ∀ i (h : i < literals.length),
        litCode strings (literals.get ⟨i, h⟩) = lut.get? i) ∧
    (¬ c3cond strings literals →
      VhdlType.from_enum strings name literals = .Enum name literals) := by
  by_cases hcond : c3cond strings literals
  · have htp : try_parse_nine_value_bit strings name literals =
        some (.NineValueBit name
          (writeSeq (List.replicate 9 0) 0 (literals.filterMap (litCode strings)))) := by
      rw [try_parse_char, if_pos hcond]
    have hfe : VhdlType.from_enum strings name literals =
        .NineValueBit name
          (writeSeq (List.replicate 9 0) 0 (literals.filterMap (litCode strings))) := by
      rw [VhdlType.from_enum, htp]
    obtain ⟨h9, hsome, hnod⟩ := hcond
    have hallc : allCodes strings literals =
        some (literals.filterMap (litCode strings)) :=
      allCodes_of_all_some strings literals hsome
    obtain ⟨-, hlen, hget, -⟩ := allCodes_some strings literals _ hallc
    have hlt9 : ∀ c ∈ literals.filterMap (litCode strings), c < 9 := by
      intro c hc
      obtain ⟨l, _, hl⟩ := List.mem_filterMap.mp hc
      exact litCode_lt_nine strings l c hl
    have hlencodes : (literals.filterMap (litCode strings)).length = 9 := by
      rw [hlen, h9]
    refine ⟨⟨fun _ => ⟨h9, hsome, hnod⟩, fun _ => ⟨_, hfe⟩⟩, ?_,
      fun hn => absurd ⟨h9, hsome, hnod⟩ hn⟩
    intro lut hlut
    rw [hfe] at hlut
    injection hlut with _ hl2
    constructor
    · have hsub : literals.filterMap (litCode strings) ⊆ List.range 9 :=
        fun c hc => List.mem_range.mpr (hlt9 c hc)
      exact (List.subperm_of_subset hnod hsub).perm_of_length_le
        (by simp [hlencodes])
    · intro i h
      have hgi := hget i h
      have hwi := writeSeq_get (literals.filterMap (litCode strings))
        (List.replicate 9 0) 0 i (by omega) (by simp [hlencodes])
      simp only [Nat.zero_add] at hwi
      rw [hgi, ← hwi, hl2]
  · have htp : try_parse_nine_value_bit strings name literals = none := by
      rw [try_parse_char, if_neg hcond]
    have hfe : VhdlType.from_enum strings name literals = .Enum name literals := by
      rw [VhdlType.from_enum, htp]
    refine ⟨⟨fun h => ?_, fun hc => absurd hc hcond⟩, fun lut hlut => ?_, fun _ => hfe⟩
    · obtain ⟨lut, hl⟩ := h
      rw [hfe] at hl
      exact absurd hl (by simp)
    · rw [hfe] at hlut
      exact absurd hlut (by simp)

/-- C3 witness: the theorem applied to the std_ulogic literal table,
with literals written as GHDL does — three characters including the tick
delimiters — whose middle characters `u x 0 1 z w l h -` satisfy the
promotion condition. -/
theorem c3_nine_value_promotion_witness :
    (∀ l ∈ ([0, 1, 2, 3, 4, 5, 6, 7, 8] : List Nat),
      l < ([[39, 117, 39], [39, 120, 39], [39, 48, 39], [39, 49, 39], [39, 122, 39],
        [39, 119, 39], [39, 108, 39], [39, 104, 39], [39, 45, 39]] :
          List (List Nat)).length) ∧
    ∃ lut, VhdlType.from_enum
        [[39, 117, 39], [39, 120, 39], [39, 48, 39], [39, 49, 39], [39, 122, 39],
          [39, 119, 39], [39, 108, 39], [39, 104, 39], [39, 45, 39]] 0
        [0, 1, 2, 3, 4, 5, 6, 7, 8] = .NineValueBit 0 lut :=
  ⟨by decide,
    (c3_nine_value_promotion
      [[39, 117, 39], [39, 120, 39], [39, 48, 39], [39, 49, 39], [39, 122, 39],
        [39, 119, 39], [39, 108, 39], [39, 104, 39], [39, 45, 39]] 0
      [0, 1, 2, 3, 4, 5, 6, 7, 8] (by decide)).1.mpr (by decide)⟩

/-- C9 witness: the probe theorem at a concrete stream whose cursor is not
at the start: the cursor comes back to 0 and the data is untouched. -/
theorem c9_probe_restores_cursor_witness :
    (is_ghw ⟨[71, 72, 68], 2⟩).2.pos = 0 ∧ (is_ghw ⟨[71, 72, 68], 2⟩).2.data = [71, 72, 68] :=
  c9_probe_restores_cursor ⟨[71, 72, 68], 2⟩

end Ghw
